import Mathlib

/-!
Verification development for the hot-air-balloon NMEA GPS emulator
(`balloon_sim.py`).  The Python source is shallowly embedded:

* exact rational arithmetic (`ℚ`) stands in for Python floats in the wind
  interpolation and sentence formatting, and real numbers (`ℝ`) stand in for
  floats in the trigonometric position propagation;
* pandas operations are embedded over `List WindSample` with their documented
  semantics (`.iloc` on an empty selection raises `IndexError`, `read_csv` of
  an empty source raises `EmptyDataError`), exceptions becoming `Except`;
* the wall-clock read `time.strftime("%H%M%S.6", time.gmtime())` is lifted to
  explicit hour/minute/second parameters.
-/

namespace BalloonSim

/-- Seconds between GPS updates (`UPDATE_INTERVAL = 1` in the source); the
spec exposes it as the `dt_seconds` argument of the propagation step, so the
embedding of `update_position` takes it as a parameter. -/
def UPDATE_INTERVAL : ℚ := 1

/-- Earth radius used for movement calculations (`EARTH_RADIUS_KM = 6371`). -/
def EARTH_RADIUS_KM : ℚ := 6371

/-! ## Decimal and hexadecimal digit rendering (Python `str.format`) -/

/-- Decimal digits of `n`, most significant first, with explicit fuel
(`fuel > n` suffices).  Embeds the digit run produced by Python `"%d"`. -/
def decDigits : ℕ → ℕ → List Char
  | 0, _ => []
  | fuel + 1, n =>
    if n < 10 then [Char.ofNat (48 + n)]
    else decDigits fuel (n / 10) ++ [Char.ofNat (48 + n % 10)]

/-- Decimal rendering of a natural number, as Python `str(n)`. -/
def natStr (n : ℕ) : List Char := decDigits (n + 1) n

/-- Uppercase hexadecimal digit for `k < 16`. -/
def hexDigitU (k : ℕ) : Char :=
  if k < 10 then Char.ofNat (48 + k) else Char.ofNat (55 + k)

/-- Uppercase hexadecimal digits of `n`, most significant first, with fuel. -/
def hexDigits : ℕ → ℕ → List Char
  | 0, _ => []
  | fuel + 1, n =>
    if n < 16 then [hexDigitU n]
    else hexDigits fuel (n / 16) ++ [hexDigitU (n % 16)]

/-- Uppercase hexadecimal rendering of a natural number, as Python `"%X"`. -/
def hexStr (n : ℕ) : List Char := hexDigits (n + 1) n

/-- Left-pad a digit run with zeros to `w` characters: Python `"%0wd"`. -/
def padZeros (w : ℕ) (ds : List Char) : List Char :=
  List.replicate (w - ds.length) '0' ++ ds

/-! ## NMEA checksum (`calculate_checksum`) -/

/-- Embedding of `calculate_checksum`: XOR of the character codes of every
character of the sentence body, rendered as (at least) two uppercase
hexadecimal digits (`f"{checksum:02X}"`). -/
def calculate_checksum (body : List Char) : List Char :=
  padZeros 2 (hexStr (body.foldl (fun a c => a ^^^ c.toNat) 0))

/-! ## Wind profile (`winds_df`, `interpolate_wind`) -/

/-- One row of `winds.txt`: altitude (feet), wind source bearing (degrees),
wind speed (knots). -/
structure WindSample where
  height_ft : ℚ
  bearing_deg : ℚ
  speed_knots : ℚ
  deriving DecidableEq, Repr

/-- Comparison on samples by altitude, the key of `sort_values(by="height_ft")`. -/
def hle (a b : WindSample) : Prop := a.height_ft ≤ b.height_ft

instance : DecidableRel hle := fun a b =>
  inferInstanceAs (Decidable (a.height_ft ≤ b.height_ft))

instance : IsTotal WindSample hle := ⟨fun a b => le_total a.height_ft b.height_ft⟩

instance : IsTrans WindSample hle := ⟨fun _ _ _ h h' => le_trans h h'⟩

/-- Embedding of `winds_df.sort_values(by="height_ft")`.  On profiles with
pairwise-distinct altitudes (the spec's collection invariant) every sort
agrees, so a concrete stable sort is used. -/
def sortWinds (ws : List WindSample) : List WindSample := List.insertionSort hle ws

/-- Python `%` on rationals with a positive modulus:
`a - m * ⌊a / m⌋`, always in `[0, m)` for `m > 0`. -/
def qmod (a m : ℚ) : ℚ := a - m * ⌊a / m⌋

/-- Embedding of `interpolate_wind`.  The source filters the sorted frame and
takes `.iloc[-1]` of the rows below and `.iloc[0]` of the rows above the query
altitude; pandas raises `IndexError` when the selection is empty, and that
raise happens before the (dead) `if lower_wind.empty` / `if upper_wind.empty`
guards can run, so an empty selection yields an error here. -/
def interpolate_wind (ws : List WindSample) (altitude_ft : ℚ) :
    Except String (ℚ × ℚ) :=
  let sorted_winds := sortWinds ws
  match (sorted_winds.filter (fun w => decide (w.height_ft = altitude_ft))).head? with
  | some w => Except.ok (w.bearing_deg, w.speed_knots)
  | none =>
    match (sorted_winds.filter (fun w => decide (w.height_ft < altitude_ft))).getLast?,
          (sorted_winds.filter (fun w => decide (altitude_ft < w.height_ft))).head? with
    | some lower_wind, some upper_wind =>
      let angle_difference := qmod (upper_wind.bearing_deg - lower_wind.bearing_deg) 360
      let angle_difference :=
        if 180 < angle_difference then angle_difference - 360 else angle_difference
      let fraction :=
        (altitude_ft - lower_wind.height_ft) / (upper_wind.height_ft - lower_wind.height_ft)
      Except.ok
        (qmod (lower_wind.bearing_deg + fraction * angle_difference) 360,
         lower_wind.speed_knots + fraction * (upper_wind.speed_knots - lower_wind.speed_knots))
    | _, _ => Except.error "IndexError"

/-- Embedding of line 21, `pd.read_csv("winds.txt", names=[...])`: pandas
raises `EmptyDataError` when the source holds no data rows (this happens at
module load, before the simulation loop at line 151 is entered); otherwise it
yields the parsed rows. -/
def winds_load (rows : List WindSample) : Except String (List WindSample) :=
  if rows.isEmpty then Except.error "EmptyDataError" else Except.ok rows

/-! ## Fixed-point decimal formatting (Python `f"{x:.Nf}"`) -/

/-- Round a rational to the nearest integer, ties to even, as Python does when
formatting a value to a fixed number of decimals. -/
def roundHalfEven (q : ℚ) : ℤ :=
  let f := ⌊q⌋
  let r := q - (f : ℚ)
  if r < 1 / 2 then f
  else if 1 / 2 < r then f + 1
  else if f % 2 = 0 then f else f + 1

/-- Embedding of Python `f"{q:.precf}"`: sign, integer part, and the
fractional part zero-padded to `prec` digits. -/
def formatFixed (q : ℚ) (prec : ℕ) : List Char :=
  let sign : List Char := if q < 0 then ['-'] else []
  let n := (roundHalfEven (|q| * (10 : ℚ) ^ prec)).toNat
  let ip := n / 10 ^ prec
  let fp := n % 10 ^ prec
  if prec = 0 then sign ++ natStr ip
  else sign ++ natStr ip ++ ['.'] ++ padZeros prec (natStr fp)

/-! ## NMEA sentence construction (`create_nmea_sentences`) -/

/-- Comma-separated concatenation of fields, exactly the literal commas of the
source's f-strings. -/
def joinComma : List (List Char) → List Char
  | [] => []
  | [f] => f
  | f :: rest => f ++ ',' :: joinComma rest

/-- Wrap a sentence body as the source does:
`f"$\x7bbody\x7d*\x7bcalculate_checksum(body)\x7d"`. -/
def wrapSentence (body : List Char) : String :=
  String.mk ('$' :: (body ++ '*' :: calculate_checksum body))

/-- Embedding of `create_nmea_sentences(lat, lon, alt, speed_knots)`.  The
wall-clock read `time.strftime("%H%M%S.6", time.gmtime())` is lifted to the
explicit parameters `hh mm ss` (each rendered zero-padded to two digits, with
the literal `".6"` suffix), so the function becomes pure. -/
def create_nmea_sentences (lat lon alt speed_knots : ℚ) (hh mm ss : ℕ) :
    List String :=
  let altm := alt / 3.28084
  let lat_deg : ℕ := (⌊|lat|⌋).toNat
  let lat_min : ℚ := (|lat| - (lat_deg : ℚ)) * 60
  let lat_hemisphere : List Char := if 0 ≤ lat then ['N'] else ['S']
  let lon_deg : ℕ := (⌊|lon|⌋).toNat
  let lon_min : ℚ := (|lon| - (lon_deg : ℚ)) * 60
  let lon_hemisphere : List Char := if 0 ≤ lon then ['E'] else ['W']
  let time_str :=
    padZeros 2 (natStr hh) ++ padZeros 2 (natStr mm) ++ padZeros 2 (natStr ss) ++ ['.', '6']
  let lat_str := padZeros 2 (natStr lat_deg) ++ formatFixed lat_min 6
  let lon_str := padZeros 3 (natStr lon_deg) ++ formatFixed lon_min 6
  let speed_str := formatFixed speed_knots 2
  let rmc_body := joinComma
    [['G', 'N', 'R', 'M', 'C'], time_str, ['A'], lat_str, lat_hemisphere,
     lon_str, lon_hemisphere, speed_str, [], [], ['0', '0', '2', '.', '7'], ['E'], ['N']]
  let gga_body := joinComma
    [['G', 'N', 'G', 'G', 'A'], time_str, lat_str, lat_hemisphere,
     lon_str, lon_hemisphere, ['1'], ['0', '8'], ['0', '.', '9'],
     formatFixed altm 1, ['M'], ['0', '.', '0'], ['M'], [], []]
  let vtg_body := joinComma
    [['G', 'N', 'V', 'T', 'G'], [], ['T'], [], ['M'], speed_str, ['N'], [], ['K'], ['N']]
  [wrapSentence rmc_body, wrapSentence gga_body, wrapSentence vtg_body]

/-! ## Observations used to state the checksum and field claims -/

/-- Characters strictly between the leading delimiter and the first `'*'`. -/
def bodyBetween (cs : List Char) : List Char :=
  (cs.drop 1).takeWhile (fun c => !(c == '*'))

/-- Characters strictly after the first `'*'` past the leading delimiter. -/
def afterStar (cs : List Char) : List Char :=
  ((cs.drop 1).dropWhile (fun c => !(c == '*'))).drop 1

/-- Split a character run at commas (inverse of `joinComma` on comma-free
fields). -/
def splitComma : List Char → List (List Char)
  | [] => [[]]
  | c :: rest =>
    if c = ',' then [] :: splitComma rest
    else
      match splitComma rest with
      | [] => [[c]]
      | f :: fs => (c :: f) :: fs

/-! ## Position propagation (`update_position`), over exact reals -/

/-- Python `math.radians`. -/
noncomputable def radiansR (d : ℝ) : ℝ := d * (Real.pi / 180)

/-- Python `math.degrees`. -/
noncomputable def degreesR (r : ℝ) : ℝ := r * (180 / Real.pi)

/-- Python float `%` with a positive modulus: `a - m * ⌊a / m⌋`. -/
noncomputable def pmodR (a m : ℝ) : ℝ := a - m * (⌊a / m⌋ : ℤ)

/-- Python `math.atan2` on exact reals (no signed zero). -/
noncomputable def atan2 (y x : ℝ) : ℝ :=
  if 0 < x then Real.arctan (y / x)
  else if x < 0 then
    (if 0 ≤ y then Real.arctan (y / x) + Real.pi else Real.arctan (y / x) - Real.pi)
  else if 0 < y then Real.pi / 2
  else if y < 0 then -(Real.pi / 2)
  else 0

/-- Embedding of `update_position(lat, lon, bearing, speed_knots)`.  The
source reads the tick length from the module constant `UPDATE_INTERVAL`; the
spec's contract exposes it as `dt_seconds`, so it is the first parameter here.
`math.asin` raises `ValueError` when its argument leaves `[-1, 1]`; the
source catches that and returns the input position, which the inner guard
mirrors.  The `math.isnan` check on line 92 has no counterpart in exact real
arithmetic (reals carry no NaN), so it is not represented. -/
noncomputable def update_position (dt_seconds lat lon bearing speed_knots : ℝ) :
    ℝ × ℝ :=
  let speed_kmh := speed_knots * 1.852
  let distance_km := speed_kmh * (dt_seconds / 3600)
  if distance_km ≤ 0 then (lat, lon)
  else
    let normalized_bearing := pmodR (bearing + 180) 360
    let lat_radians := radiansR lat
    let lon_radians := radiansR lon
    let bearing_radians := radiansR normalized_bearing
    let sin_arg :=
      Real.sin lat_radians * Real.cos (distance_km / 6371) +
        Real.cos lat_radians * Real.sin (distance_km / 6371) * Real.cos bearing_radians
    if 1 < |sin_arg| then (lat, lon)
    else
      let new_lat := Real.arcsin sin_arg
      let new_lon := lon_radians + atan2
        (Real.sin bearing_radians * Real.sin (distance_km / 6371) * Real.cos lat_radians)
        (Real.cos (distance_km / 6371) - Real.sin lat_radians * Real.sin new_lat)
      (degreesR new_lat, degreesR new_lon)

/-- Modelled from the spec's words in section 4.2 ("spherical-Earth direct
geodesic formula, mean Earth radius 6371 km"), for the refinement part of the
propagation claim: destination point from an initial point, a heading and a
travel distance. -/
noncomputable def spec_destination (lat lon heading_deg dist_km : ℝ) : ℝ × ℝ :=
  let phi := radiansR lat
  let lam := radiansR lon
  let theta := radiansR heading_deg
  let del := dist_km / 6371
  let phi2 := Real.arcsin
    (Real.sin phi * Real.cos del + Real.cos phi * Real.sin del * Real.cos theta)
  let lam2 := lam + atan2
    (Real.sin theta * Real.sin del * Real.cos phi)
    (Real.cos del - Real.sin phi * Real.sin phi2)
  (degreesR phi2, degreesR lam2)

/-! ## Character-set facts about the rendered fields -/

/-- Characters that may appear inside a sentence body: plain ASCII, and
neither of the two framing delimiters. -/
abbrev asciiBody (c : Char) : Prop := c.toNat < 128 ∧ c ≠ '*' ∧ c ≠ '$'

/-- Characters that may appear inside a single comma-separated field. -/
abbrev asciiField (c : Char) : Prop := asciiBody c ∧ c ≠ ','

lemma asciiField_decChar : ∀ k, k < 10 → asciiField (Char.ofNat (48 + k)) := by decide

lemma asciiField_hexDigitU : ∀ k, k < 16 → asciiField (hexDigitU k) := by decide

lemma mem_decDigits {fuel n : ℕ} {c : Char} (h : c ∈ decDigits fuel n) :
    ∃ k, k < 10 ∧ c = Char.ofNat (48 + k) := by
  induction fuel generalizing n with
  | zero => simp [decDigits] at h
  | succ fuel ih =>
    rw [decDigits] at h
    split at h
    · next hn => exact ⟨n, hn, by simpa using h⟩
    · rcases List.mem_append.1 h with h' | h'
      · exact ih h'
      · exact ⟨n % 10, Nat.mod_lt _ (by norm_num), by simpa using h'⟩

lemma asciiField_natStr {n : ℕ} {c : Char} (h : c ∈ natStr n) : asciiField c := by
  obtain ⟨k, hk, rfl⟩ := mem_decDigits h
  exact asciiField_decChar k hk

lemma mem_padZeros {w : ℕ} {ds : List Char} {c : Char} (h : c ∈ padZeros w ds) :
    c = '0' ∨ c ∈ ds := by
  rcases List.mem_append.1 h with h' | h'
  · exact Or.inl (List.eq_of_mem_replicate h')
  · exact Or.inr h'

lemma asciiField_padZeros_natStr {w n : ℕ} {c : Char}
    (h : c ∈ padZeros w (natStr n)) : asciiField c := by
  rcases mem_padZeros h with rfl | h'
  · decide
  · exact asciiField_natStr h'

lemma asciiField_formatFixed {q : ℚ} {p : ℕ} {c : Char}
    (h : c ∈ formatFixed q p) : asciiField c := by
  simp only [formatFixed] at h
  have hsign : ∀ d : Char, d ∈ (if q < 0 then ['-'] else ([] : List Char)) →
      asciiField d := by
    intro d hd
    split at hd
    · have : d = '-' := by simpa using hd
      subst this; decide
    · simp at hd
  split at h
  · rcases List.mem_append.1 h with h' | h'
    · exact hsign c h'
    · exact asciiField_natStr h'
  · rcases List.mem_append.1 h with h' | h'
    · rcases List.mem_append.1 h' with h'' | h''
      · rcases List.mem_append.1 h'' with h3 | h3
        · exact hsign c h3
        · exact asciiField_natStr h3
      · have : c = '.' := by simpa using h''
        subst this; decide
    · exact asciiField_padZeros_natStr h'

lemma asciiBody_joinComma {fields : List (List Char)} {c : Char}
    (hf : ∀ f ∈ fields, ∀ c' ∈ f, asciiField c') (h : c ∈ joinComma fields) :
    asciiBody c := by
  induction fields with
  | nil => simp [joinComma] at h
  | cons f rest ih =>
    cases rest with
    | nil =>
      exact (hf f (by simp) c (by simpa [joinComma] using h)).1
    | cons g t =>
      replace h : c ∈ f ++ ',' :: joinComma (g :: t) := h
      rcases List.mem_append.1 h with h' | h'
      · exact (hf f (by simp) c h').1
      · rcases List.mem_cons.1 h' with rfl | h''
        · decide
        · exact ih (fun f' hf' => hf f' (List.mem_cons_of_mem _ hf')) h''

/-! ## The checksum is two hex digits and round-trips -/

lemma foldl_xor_lt (l : List Char) (hl : ∀ c ∈ l, c.toNat < 128) :
    ∀ a, a < 128 → l.foldl (fun a c => a ^^^ c.toNat) a < 128 := by
  induction l with
  | nil => simp only [List.foldl_nil]; exact fun a ha => ha
  | cons c t ih =>
    intro a ha
    have h128 : (128 : ℕ) = 2 ^ 7 := by norm_num
    refine ih (fun c' hc' => hl c' (List.mem_cons_of_mem _ hc')) _ ?_
    rw [h128]
    exact Nat.xor_lt_two_pow (h128 ▸ ha) (h128 ▸ hl c (List.mem_cons_self c t))

lemma hexDigits_of_lt {fuel m : ℕ} (hf : 0 < fuel) (hm : m < 16) :
    hexDigits fuel m = [hexDigitU m] := by
  cases fuel with
  | zero => omega
  | succ fuel => rw [hexDigits, if_pos hm]

lemma hexStr_length_le {n : ℕ} (h : n < 256) : (hexStr n).length ≤ 2 := by
  unfold hexStr
  rw [hexDigits]
  split
  · simp
  · next hn =>
    rw [hexDigits_of_lt (by omega) (by omega)]
    simp

lemma calculate_checksum_length {body : List Char}
    (h : ∀ c ∈ body, c.toNat < 128) : (calculate_checksum body).length = 2 := by
  unfold calculate_checksum padZeros
  have hlt : body.foldl (fun a c => a ^^^ c.toNat) 0 < 128 :=
    foldl_xor_lt body h 0 (by norm_num)
  have := hexStr_length_le (by omega : body.foldl (fun a c => a ^^^ c.toNat) 0 < 256)
  simp only [List.length_append, List.length_replicate]
  omega

lemma takeWhile_append_star (body tail : List Char) (h : '*' ∉ body) :
    (body ++ '*' :: tail).takeWhile (fun c => !(c == '*')) = body := by
  induction body with
  | nil => simp [List.takeWhile]
  | cons c t ih =>
    have hc : c ≠ '*' := fun hc => h (hc ▸ List.mem_cons_self c t)
    have ht : '*' ∉ t := fun ht => h (List.mem_cons_of_mem _ ht)
    simp only [List.cons_append, List.takeWhile_cons]
    rw [if_pos (by simpa using hc)]
    rw [ih ht]

lemma dropWhile_append_star (body tail : List Char) (h : '*' ∉ body) :
    (body ++ '*' :: tail).dropWhile (fun c => !(c == '*')) = '*' :: tail := by
  induction body with
  | nil => simp [List.dropWhile]
  | cons c t ih =>
    have hc : c ≠ '*' := fun hc => h (hc ▸ List.mem_cons_self c t)
    have ht : '*' ∉ t := fun ht => h (List.mem_cons_of_mem _ ht)
    simp only [List.cons_append, List.dropWhile_cons]
    rw [if_pos (by simpa using hc)]
    exact ih ht

lemma bodyBetween_wrap {body : List Char} (h : '*' ∉ body) :
    bodyBetween (wrapSentence body).data = body := by
  show (('$' :: (body ++ '*' :: calculate_checksum body)).drop 1).takeWhile _ = body
  rw [List.drop_one, List.tail_cons]
  exact takeWhile_append_star _ _ h

lemma afterStar_wrap {body : List Char} (h : '*' ∉ body) :
    afterStar (wrapSentence body).data = calculate_checksum body := by
  show ((('$' :: (body ++ '*' :: calculate_checksum body)).drop 1).dropWhile _).drop 1
      = calculate_checksum body
  have h1 : ('$' :: (body ++ '*' :: calculate_checksum body)).drop 1
      = body ++ '*' :: calculate_checksum body := rfl
  rw [h1, dropWhile_append_star _ _ h]
  rfl

lemma wrap_roundtrip {body : List Char} (hb : ∀ c ∈ body, asciiBody c) :
    afterStar (wrapSentence body).data
        = calculate_checksum (bodyBetween (wrapSentence body).data) ∧
      (afterStar (wrapSentence body).data).length = 2 := by
  have hstar : '*' ∉ body := fun hmem => (hb '*' hmem).2.1 rfl
  rw [bodyBetween_wrap hstar, afterStar_wrap hstar]
  exact ⟨rfl, calculate_checksum_length (fun c hc => (hb c hc).1)⟩

lemma asciiField_append {l1 l2 : List Char} (h1 : ∀ c ∈ l1, asciiField c)
    (h2 : ∀ c ∈ l2, asciiField c) : ∀ c ∈ l1 ++ l2, asciiField c := by
  intro c hc
  rcases List.mem_append.1 hc with h | h
  exacts [h1 c h, h2 c h]

lemma asciiField_pad (w n : ℕ) : ∀ c ∈ padZeros w (natStr n), asciiField c :=
  fun _ hc => asciiField_padZeros_natStr hc

/-- Claim C3: for every sentence produced by the encoder, XOR-ing the
character codes of every character strictly between the leading `'$'` and the
`'*'` delimiter, rendered as two uppercase hexadecimal digits, equals the two
hex digits that follow the `'*'` (checksum round-trip). -/
theorem nmea_checksum_roundtrip (lat lon alt speed_knots : ℚ) (hh mm ss : ℕ) :
    (create_nmea_sentences lat lon alt speed_knots hh mm ss).Forall
      (fun s => afterStar s.data = calculate_checksum (bodyBetween s.data) ∧
        (afterStar s.data).length = 2) := by
  have htime : ∀ c ∈ padZeros 2 (natStr hh) ++ padZeros 2 (natStr mm) ++
      padZeros 2 (natStr ss) ++ ['.', '6'], asciiField c :=
    asciiField_append
      (asciiField_append (asciiField_append (asciiField_pad _ _) (asciiField_pad _ _))
        (asciiField_pad _ _)) (by decide)
  have hlat : ∀ c ∈ padZeros 2 (natStr (⌊|lat|⌋).toNat) ++
      formatFixed ((|lat| - ((⌊|lat|⌋).toNat : ℚ)) * 60) 6, asciiField c :=
    asciiField_append (asciiField_pad _ _) (fun _ hc => asciiField_formatFixed hc)
  have hlon : ∀ c ∈ padZeros 3 (natStr (⌊|lon|⌋).toNat) ++
      formatFixed ((|lon| - ((⌊|lon|⌋).toNat : ℚ)) * 60) 6, asciiField c :=
    asciiField_append (asciiField_pad _ _) (fun _ hc => asciiField_formatFixed hc)
  have hNS : ∀ c ∈ (if 0 ≤ lat then ['N'] else ['S']), asciiField c := by
    split <;> decide
  have hEW : ∀ c ∈ (if 0 ≤ lon then ['E'] else ['W']), asciiField c := by
    split <;> decide
  have hsp : ∀ c ∈ formatFixed speed_knots 2, asciiField c :=
    fun _ hc => asciiField_formatFixed hc
  have halt : ∀ c ∈ formatFixed (alt / 3.28084) 1, asciiField c :=
    fun _ hc => asciiField_formatFixed hc
  have hnil : ∀ c ∈ ([] : List Char), asciiField c := by simp
  simp only [create_nmea_sentences, List.Forall]
  refine ⟨wrap_roundtrip (fun c hc => asciiBody_joinComma ?_ hc),
    wrap_roundtrip (fun c hc => asciiBody_joinComma ?_ hc),
    wrap_roundtrip (fun c hc => asciiBody_joinComma ?_ hc)⟩
  · intro f hf
    simp only [List.mem_cons, List.not_mem_nil, or_false] at hf
    rcases hf with rfl | rfl | rfl | rfl | rfl | rfl | rfl | rfl | rfl | rfl | rfl | rfl | rfl
    exacts [by decide, htime, by decide, hlat, hNS, hlon, hEW, hsp, hnil, hnil,
      by decide, by decide, by decide]
  · intro f hf
    simp only [List.mem_cons, List.not_mem_nil, or_false] at hf
    rcases hf with rfl | rfl | rfl | rfl | rfl | rfl | rfl | rfl | rfl | rfl | rfl | rfl |
      rfl | rfl | rfl
    exacts [by decide, htime, hlat, hNS, hlon, hEW, by decide, by decide, by decide,
      halt, by decide, by decide, by decide, hnil, hnil]
  · intro f hf
    simp only [List.mem_cons, List.not_mem_nil, or_false] at hf
    rcases hf with rfl | rfl | rfl | rfl | rfl | rfl | rfl | rfl | rfl | rfl
    exacts [by decide, hnil, by decide, hnil, by decide, hsp, by decide, hnil,
      by decide, by decide]

/-! ## Splitting a body at commas recovers the fields -/

lemma splitComma_nocomma {f : List Char} (h : ',' ∉ f) : splitComma f = [f] := by
  induction f with
  | nil => rfl
  | cons c t ih =>
    have hc : c ≠ ',' := fun hc => h (hc ▸ List.mem_cons_self c t)
    have ht : ',' ∉ t := fun ht => h (List.mem_cons_of_mem _ ht)
    rw [splitComma, if_neg hc, ih ht]

lemma splitComma_append {f t : List Char} (h : ',' ∉ f) :
    splitComma (f ++ ',' :: t) = f :: splitComma t := by
  induction f with
  | nil => simp [splitComma]
  | cons c g ih =>
    have hc : c ≠ ',' := fun hc => h (hc ▸ List.mem_cons_self c g)
    have hg : ',' ∉ g := fun hg => h (List.mem_cons_of_mem _ hg)
    rw [List.cons_append, splitComma, if_neg hc, ih hg]

lemma splitComma_joinComma {fields : List (List Char)}
    (h : ∀ f ∈ fields, ',' ∉ f) (hne : fields ≠ []) :
    splitComma (joinComma fields) = fields := by
  induction fields with
  | nil => exact absurd rfl hne
  | cons f rest ih =>
    cases rest with
    | nil => exact splitComma_nocomma (h f (by simp))
    | cons g t =>
      show splitComma (f ++ ',' :: joinComma (g :: t)) = _
      rw [splitComma_append (h f (by simp)),
        ih (fun f' hf' => h f' (List.mem_cons_of_mem _ hf')) (by simp)]

/-- Claim C6: every call to the encoder returns exactly three sentences, in
the order RMC, GGA, VTG, and the altitude embedded in the GGA fix-data
sentence (its tenth comma-separated field) is the input altitude in feet
divided by 3.28084, rendered to one decimal. -/
theorem create_nmea_sentences_shape (lat lon alt speed_knots : ℚ) (hh mm ss : ℕ) :
    (create_nmea_sentences lat lon alt speed_knots hh mm ss).length = 3 ∧
    ((create_nmea_sentences lat lon alt speed_knots hh mm ss).getD 0 "").data.take 6
        = ['$', 'G', 'N', 'R', 'M', 'C'] ∧
    ((create_nmea_sentences lat lon alt speed_knots hh mm ss).getD 1 "").data.take 6
        = ['$', 'G', 'N', 'G', 'G', 'A'] ∧
    ((create_nmea_sentences lat lon alt speed_knots hh mm ss).getD 2 "").data.take 6
        = ['$', 'G', 'N', 'V', 'T', 'G'] ∧
    (splitComma
        (bodyBetween
          ((create_nmea_sentences lat lon alt speed_knots hh mm ss).getD 1 "").data)).getD
        9 []
        = formatFixed (alt / 3.28084) 1 := by
  have htime : ∀ c ∈ padZeros 2 (natStr hh) ++ padZeros 2 (natStr mm) ++
      padZeros 2 (natStr ss) ++ ['.', '6'], asciiField c :=
    asciiField_append
      (asciiField_append (asciiField_append (asciiField_pad _ _) (asciiField_pad _ _))
        (asciiField_pad _ _)) (by decide)
  have hlat : ∀ c ∈ padZeros 2 (natStr (⌊|lat|⌋).toNat) ++
      formatFixed ((|lat| - ((⌊|lat|⌋).toNat : ℚ)) * 60) 6, asciiField c :=
    asciiField_append (asciiField_pad _ _) (fun _ hc => asciiField_formatFixed hc)
  have hlon : ∀ c ∈ padZeros 3 (natStr (⌊|lon|⌋).toNat) ++
      formatFixed ((|lon| - ((⌊|lon|⌋).toNat : ℚ)) * 60) 6, asciiField c :=
    asciiField_append (asciiField_pad _ _) (fun _ hc => asciiField_formatFixed hc)
  have hNS : ∀ c ∈ (if 0 ≤ lat then ['N'] else ['S']), asciiField c := by
    split <;> decide
  have hEW : ∀ c ∈ (if 0 ≤ lon then ['E'] else ['W']), asciiField c := by
    split <;> decide
  have halt : ∀ c ∈ formatFixed (alt / 3.28084) 1, asciiField c :=
    fun _ hc => asciiField_formatFixed hc
  have hnil : ∀ c ∈ ([] : List Char), asciiField c := by simp
  refine ⟨by simp [create_nmea_sentences], rfl, rfl, rfl, ?_⟩
  simp only [create_nmea_sentences, List.getD_cons_succ, List.getD_cons_zero]
  have hfields : ∀ f ∈
      [['G', 'N', 'G', 'G', 'A'],
       padZeros 2 (natStr hh) ++ padZeros 2 (natStr mm) ++ padZeros 2 (natStr ss) ++
         ['.', '6'],
       padZeros 2 (natStr (⌊|lat|⌋).toNat) ++
         formatFixed ((|lat| - ((⌊|lat|⌋).toNat : ℚ)) * 60) 6,
       if 0 ≤ lat then ['N'] else ['S'],
       padZeros 3 (natStr (⌊|lon|⌋).toNat) ++
         formatFixed ((|lon| - ((⌊|lon|⌋).toNat : ℚ)) * 60) 6,
       if 0 ≤ lon then ['E'] else ['W'],
       ['1'], ['0', '8'], ['0', '.', '9'],
       formatFixed (alt / 3.28084) 1,
       ['M'], ['0', '.', '0'], ['M'], [], []],
      ∀ c ∈ f, asciiField c := by
    intro f hf
    simp only [List.mem_cons, List.not_mem_nil, or_false] at hf
    rcases hf with rfl | rfl | rfl | rfl | rfl | rfl | rfl | rfl | rfl | rfl | rfl | rfl |
      rfl | rfl | rfl
    exacts [by decide, htime, hlat, hNS, hlon, hEW, by decide, by decide, by decide,
      halt, by decide, by decide, by decide, hnil, hnil]
  have hstar : '*' ∉ joinComma
      [['G', 'N', 'G', 'G', 'A'],
       padZeros 2 (natStr hh) ++ padZeros 2 (natStr mm) ++ padZeros 2 (natStr ss) ++
         ['.', '6'],
       padZeros 2 (natStr (⌊|lat|⌋).toNat) ++
         formatFixed ((|lat| - ((⌊|lat|⌋).toNat : ℚ)) * 60) 6,
       if 0 ≤ lat then ['N'] else ['S'],
       padZeros 3 (natStr (⌊|lon|⌋).toNat) ++
         formatFixed ((|lon| - ((⌊|lon|⌋).toNat : ℚ)) * 60) 6,
       if 0 ≤ lon then ['E'] else ['W'],
       ['1'], ['0', '8'], ['0', '.', '9'],
       formatFixed (alt / 3.28084) 1,
       ['M'], ['0', '.', '0'], ['M'], [], []] :=
    fun hmem => (asciiBody_joinComma hfields hmem).2.1 rfl
  have hcomma : ∀ f ∈
      [['G', 'N', 'G', 'G', 'A'],
       padZeros 2 (natStr hh) ++ padZeros 2 (natStr mm) ++ padZeros 2 (natStr ss) ++
         ['.', '6'],
       padZeros 2 (natStr (⌊|lat|⌋).toNat) ++
         formatFixed ((|lat| - ((⌊|lat|⌋).toNat : ℚ)) * 60) 6,
       if 0 ≤ lat then ['N'] else ['S'],
       padZeros 3 (natStr (⌊|lon|⌋).toNat) ++
         formatFixed ((|lon| - ((⌊|lon|⌋).toNat : ℚ)) * 60) 6,
       if 0 ≤ lon then ['E'] else ['W'],
       ['1'], ['0', '8'], ['0', '.', '9'],
       formatFixed (alt / 3.28084) 1,
       ['M'], ['0', '.', '0'], ['M'], [], []], ',' ∉ f :=
    fun f hf hc => (hfields f hf ',' hc).2 rfl
  rw [bodyBetween_wrap hstar, splitComma_joinComma hcomma (by simp)]
  rfl

/-! ## Wind interpolation claims -/

/-- Claim C1 (refuted by the code): the spec promises clamping at both ends
of the profile, but the embedded pandas lookup (`.iloc[-1]` / `.iloc[0]` on
an empty selection, reached before the dead emptiness guards) raises
`IndexError` for a query below the lowest or above the highest sampled
altitude. -/
theorem interpolate_wind_raises_outside_range :
    interpolate_wind [⟨1000, 90, 5⟩] 500 = Except.error "IndexError" ∧
    interpolate_wind [⟨1000, 90, 5⟩] 2000 = Except.error "IndexError" :=
  ⟨rfl, rfl⟩

/-- Claim C2: an empty wind profile is rejected by the load step itself
(pandas `EmptyDataError` at module load, before the simulation loop starts),
and any profile the loop can see is non-empty, so no per-tick wind query can
fail because of an empty profile. -/
theorem winds_load_rejects_empty :
    winds_load [] = Except.error "EmptyDataError" ∧
    ∀ rows ws, winds_load rows = Except.ok ws → ws ≠ [] := by
  refine ⟨rfl, ?_⟩
  intro rows ws h
  by_cases hr : rows.isEmpty
  · rw [winds_load, if_pos hr] at h
    cases h
  · rw [winds_load, if_neg hr] at h
    cases h
    simpa using hr

/-- Witness for the load-rejection claim at a concrete one-row profile. -/
theorem winds_load_rejects_empty_witness :
    ([⟨1000, 90, 5⟩] : List WindSample) ≠ [] :=
  winds_load_rejects_empty.2 [⟨1000, 90, 5⟩] [⟨1000, 90, 5⟩] rfl

lemma qmod_nonneg {a m : ℚ} (hm : 0 < m) : 0 ≤ qmod a m ∧ qmod a m < m := by
  have hmul : m * (a / m) = a := by field_simp
  have h1 : qmod a m = m * Int.fract (a / m) := by
    unfold qmod Int.fract
    rw [mul_sub, hmul]
  refine ⟨?_, ?_⟩
  · rw [h1]
    exact mul_nonneg hm.le (Int.fract_nonneg _)
  · rw [h1]
    calc m * Int.fract (a / m) < m * 1 := (mul_lt_mul_left hm).2 (Int.fract_lt_one _)
      _ = m := mul_one m

lemma getLast?_eq_of_max {l : List WindSample} {x : WindSample}
    (hs : l.Pairwise hle) (hnd : (l.map WindSample.height_ft).Nodup)
    (hx : x ∈ l) (hmax : ∀ y ∈ l, y.height_ft ≤ x.height_ft) :
    l.getLast? = some x := by
  induction l with
  | nil => cases hx
  | cons a t ih =>
    rw [List.map_cons, List.nodup_cons] at hnd
    cases t with
    | nil =>
      have hxa : x = a := by simpa using hx
      subst hxa; rfl
    | cons b t2 =>
      have hxt : x ∈ b :: t2 := by
        rcases List.mem_cons.1 hx with rfl | hxt
        · exfalso
          have hab : hle x b := (List.pairwise_cons.1 hs).1 b (by simp)
          have hba : b.height_ft ≤ x.height_ft := hmax b (by simp)
          have heq : x.height_ft = b.height_ft := le_antisymm hab hba
          have hmem : x.height_ft ∈ (b :: t2).map WindSample.height_ft := by
            rw [heq]
            exact List.mem_map_of_mem _ (List.mem_cons_self b t2)
          exact hnd.1 hmem
        · exact hxt
      rw [List.getLast?_cons_cons]
      exact ih (List.pairwise_cons.1 hs).2 hnd.2 hxt
        (fun y hy => hmax y (List.mem_cons_of_mem _ hy))

lemma head?_eq_of_min {l : List WindSample} {x : WindSample}
    (hs : l.Pairwise hle) (hnd : (l.map WindSample.height_ft).Nodup)
    (hx : x ∈ l) (hmin : ∀ y ∈ l, x.height_ft ≤ y.height_ft) :
    l.head? = some x := by
  cases l with
  | nil => cases hx
  | cons a t =>
    rw [List.map_cons, List.nodup_cons] at hnd
    have hxa : x = a := by
      rcases List.mem_cons.1 hx with rfl | hxt
      · rfl
      · exfalso
        have hax : hle a x := (List.pairwise_cons.1 hs).1 x hxt
        have heq : a.height_ft = x.height_ft := le_antisymm hax (hmin a (by simp))
        exact hnd.1 (heq ▸ List.mem_map_of_mem WindSample.height_ft hxt)
    subst hxa; rfl

lemma interpolate_wind_between_aux :
    ∀ (ws : List WindSample) (alt : ℚ) (lower upper : WindSample),
      lower ∈ ws → upper ∈ ws →
      lower.height_ft < alt → alt < upper.height_ft →
      (∀ w ∈ ws, w.height_ft ≤ lower.height_ft ∨ upper.height_ft ≤ w.height_ft) →
      (ws.map WindSample.height_ft).Nodup →
      ∃ b s, interpolate_wind ws alt = Except.ok (b, s) ∧
        b = qmod (lower.bearing_deg +
          ((alt - lower.height_ft) / (upper.height_ft - lower.height_ft)) *
            (if 180 < qmod (upper.bearing_deg - lower.bearing_deg) 360 then
              qmod (upper.bearing_deg - lower.bearing_deg) 360 - 360
            else qmod (upper.bearing_deg - lower.bearing_deg) 360)) 360 ∧
        s = lower.speed_knots +
          ((alt - lower.height_ft) / (upper.height_ft - lower.height_ft)) *
            (upper.speed_knots - lower.speed_knots) ∧
        0 ≤ b ∧ b < 360 := by
  intro ws alt lower upper hL hU h1 h2 hadj hnd
  have hperm : List.Perm (sortWinds ws) ws := List.perm_insertionSort hle ws
  have hsorted : (sortWinds ws).Pairwise hle := List.sorted_insertionSort hle ws
  have hnd' : ((sortWinds ws).map WindSample.height_ft).Nodup :=
    ((hperm.map WindSample.height_ft).nodup_iff).2 hnd
  have hexact : (sortWinds ws).filter (fun w => decide (w.height_ft = alt)) = [] := by
    refine List.filter_eq_nil_iff.2 ?_
    intro w hw
    rcases hadj w (hperm.subset hw) with h | h
    · simp only [decide_eq_true_eq]
      exact ne_of_lt (lt_of_le_of_lt h h1)
    · simp only [decide_eq_true_eq]
      exact ne_of_gt (lt_of_lt_of_le h2 h)
  have hlsub : List.Sublist
      ((sortWinds ws).filter (fun w => decide (w.height_ft < alt)))
      (sortWinds ws) := List.filter_sublist _
  have husub : List.Sublist
      ((sortWinds ws).filter (fun w => decide (alt < w.height_ft)))
      (sortWinds ws) := List.filter_sublist _
  have hlast : ((sortWinds ws).filter
      (fun w => decide (w.height_ft < alt))).getLast? = some lower := by
    refine getLast?_eq_of_max (List.Pairwise.sublist hlsub hsorted)
      (List.Nodup.sublist (hlsub.map _) hnd') ?_ ?_
    · exact List.mem_filter.2 ⟨hperm.mem_iff.2 hL, decide_eq_true h1⟩
    · intro y hy
      have hy' := List.mem_filter.1 hy
      have hylt : y.height_ft < alt := of_decide_eq_true hy'.2
      rcases hadj y (hperm.subset hy'.1) with h | h
      · exact h
      · exact absurd (lt_of_lt_of_le h2 h) (not_lt.2 hylt.le)
  have hhead : ((sortWinds ws).filter
      (fun w => decide (alt < w.height_ft))).head? = some upper := by
    refine head?_eq_of_min (List.Pairwise.sublist husub hsorted)
      (List.Nodup.sublist (husub.map _) hnd') ?_ ?_
    · exact List.mem_filter.2 ⟨hperm.mem_iff.2 hU, decide_eq_true h2⟩
    · intro y hy
      have hy' := List.mem_filter.1 hy
      have hygt : alt < y.height_ft := of_decide_eq_true hy'.2
      rcases hadj y (hperm.subset hy'.1) with h | h
      · exact absurd (lt_of_le_of_lt h h1) (not_lt.2 hygt.le)
      · exact h
  refine ⟨_, _, ?_, rfl, rfl, ?_, ?_⟩
  · simp only [interpolate_wind, hexact, hlast, hhead, List.head?_nil]
  · exact (qmod_nonneg (by norm_num)).1
  · exact (qmod_nonneg (by norm_num)).2

lemma floor_neg_340_div_360 : ⌊((10 : ℚ) - 350) / 360⌋ = -1 := by
  rw [Int.floor_eq_iff] ; norm_num

lemma qmod_wrap_example : qmod ((10 : ℚ) - 350) 360 = 20 := by
  unfold qmod
  rw [floor_neg_340_div_360]
  norm_num

/-- Claim C4: for a query altitude strictly between two adjacent samples the
interpolated bearing is `(lower.bearing + fraction * delta) mod 360` with
`delta = (upper.bearing - lower.bearing) mod 360`, reduced by 360 when it
exceeds 180 (shorter circular path), the result lies in `[0, 360)`, the speed
interpolates linearly; in particular samples at 10000 ft bearing 350 and
11000 ft bearing 10 give bearing 0 at 10500 ft. -/
theorem interpolate_wind_between_adjacent :
    (∀ (ws : List WindSample) (alt : ℚ) (lower upper : WindSample),
      lower ∈ ws → upper ∈ ws →
      lower.height_ft < alt → alt < upper.height_ft →
      (∀ w ∈ ws, w.height_ft ≤ lower.height_ft ∨ upper.height_ft ≤ w.height_ft) →
      (ws.map WindSample.height_ft).Nodup →
      ∃ b s, interpolate_wind ws alt = Except.ok (b, s) ∧
        b = qmod (lower.bearing_deg +
          ((alt - lower.height_ft) / (upper.height_ft - lower.height_ft)) *
            (if 180 < qmod (upper.bearing_deg - lower.bearing_deg) 360 then
              qmod (upper.bearing_deg - lower.bearing_deg) 360 - 360
            else qmod (upper.bearing_deg - lower.bearing_deg) 360)) 360 ∧
        s = lower.speed_knots +
          ((alt - lower.height_ft) / (upper.height_ft - lower.height_ft)) *
            (upper.speed_knots - lower.speed_knots) ∧
        0 ≤ b ∧ b < 360) ∧
    interpolate_wind [⟨10000, 350, 4⟩, ⟨11000, 10, 10⟩] 10500 = Except.ok (0, 7) := by
  refine ⟨interpolate_wind_between_aux, ?_⟩
  obtain ⟨b, s, heq, hb, hs, -, -⟩ :=
    interpolate_wind_between_aux
      [⟨10000, 350, 4⟩, ⟨11000, 10, 10⟩] 10500 ⟨10000, 350, 4⟩ ⟨11000, 10, 10⟩
      (List.mem_cons_self _ _)
      (List.mem_cons_of_mem _ (List.mem_cons_self _ _))
      (by norm_num) (by norm_num)
      (by
        intro w hw
        simp only [List.mem_cons, List.not_mem_nil, or_false] at hw
        rcases hw with rfl | rfl
        · exact Or.inl le_rfl
        · exact Or.inr le_rfl)
      (by
        simp only [List.map_cons, List.map_nil, List.nodup_cons, List.mem_singleton,
          List.not_mem_nil, not_false_iff, and_true, List.nodup_nil]
        norm_num)
  rw [heq]
  have hb0 : b = 0 := by
    rw [hb, qmod_wrap_example]
    norm_num
    unfold qmod
    have hfl : ⌊(360 : ℚ) / 360⌋ = 1 := by
      rw [Int.floor_eq_iff] ; norm_num
    rw [hfl]
    norm_num
  have hs7 : s = 7 := by
    rw [hs]
    norm_num
  rw [hb0, hs7]

/-- Witness for the between-samples interpolation claim, instantiated at the
spec wrap-around example (10000 ft bearing 350, 11000 ft bearing 10, queried
at 10500 ft, with speeds 4 and 10 knots). -/
theorem interpolate_wind_between_adjacent_witness :
    ∃ b s,
      interpolate_wind [⟨10000, 350, 4⟩, ⟨11000, 10, 10⟩] 10500 = Except.ok (b, s) ∧
      b = qmod ((350 : ℚ) +
        ((10500 - 10000) / (11000 - 10000)) *
          (if 180 < qmod ((10 : ℚ) - 350) 360 then qmod ((10 : ℚ) - 350) 360 - 360
          else qmod ((10 : ℚ) - 350) 360)) 360 ∧
      s = (4 : ℚ) + ((10500 - 10000) / (11000 - 10000)) * (10 - 4) ∧
      0 ≤ b ∧ b < 360 :=
  interpolate_wind_between_adjacent.1
    [⟨10000, 350, 4⟩, ⟨11000, 10, 10⟩] 10500 ⟨10000, 350, 4⟩ ⟨11000, 10, 10⟩
    (List.mem_cons_self _ _)
    (List.mem_cons_of_mem _ (List.mem_cons_self _ _))
    (by norm_num) (by norm_num)
    (by
      intro w hw
      simp only [List.mem_cons, List.not_mem_nil, or_false] at hw
      rcases hw with rfl | rfl
      · exact Or.inl le_rfl
      · exact Or.inr le_rfl)
    (by
      simp only [List.map_cons, List.map_nil, List.nodup_cons, List.mem_singleton,
        List.not_mem_nil, not_false_iff, and_true, List.nodup_nil]
      norm_num)

/-! ## Facts about the propagation step -/

lemma atan2_range (y x : ℝ) : -Real.pi < atan2 y x ∧ atan2 y x ≤ Real.pi := by
  have hπ := Real.pi_pos
  unfold atan2
  split
  · have h1 := Real.arctan_lt_pi_div_two (y / x)
    have h2 := Real.neg_pi_div_two_lt_arctan (y / x)
    constructor <;> linarith
  · split
    · next hx0 hx =>
      split
      · next hy =>
        have hyx : y / x ≤ 0 := div_nonpos_iff.2 (Or.inl ⟨hy, hx.le⟩)
        have h1 : Real.arctan (y / x) ≤ 0 := by
          have hm := Real.arctan_strictMono.monotone hyx
          simpa [Real.arctan_zero] using hm
        have h2 := Real.neg_pi_div_two_lt_arctan (y / x)
        constructor <;> linarith
      · next hy =>
        have hyx : 0 < y / x := div_pos_of_neg_of_neg (not_le.1 hy) hx
        have h1 : 0 < Real.arctan (y / x) := by
          have hm := Real.arctan_strictMono hyx
          simpa [Real.arctan_zero] using hm
        have h2 := Real.arctan_lt_pi_div_two (y / x)
        constructor <;> linarith
    · split
      · constructor <;> linarith
      · split
        · constructor <;> linarith
        · constructor <;> linarith

lemma sin_arg_le_one (a b c : ℝ) :
    |Real.sin a * Real.cos b + Real.cos a * Real.sin b * Real.cos c| ≤ 1 := by
  have key : Real.sin a * Real.cos b + Real.cos a * Real.sin b * Real.cos c
      = (Real.sin (a + b) + Real.sin (a - b)) / 2
        + (Real.sin (a + b) - Real.sin (a - b)) / 2 * Real.cos c := by
    rw [Real.sin_add, Real.sin_sub]; ring
  rw [key]
  have hu1 : -1 ≤ Real.sin (a + b) := Real.neg_one_le_sin _
  have hu2 : Real.sin (a + b) ≤ 1 := Real.sin_le_one _
  have hv1 : -1 ≤ Real.sin (a - b) := Real.neg_one_le_sin _
  have hv2 : Real.sin (a - b) ≤ 1 := Real.sin_le_one _
  have ht1 : -1 ≤ Real.cos c := Real.neg_one_le_cos _
  have ht2 : Real.cos c ≤ 1 := Real.cos_le_one _
  rw [abs_le]
  constructor
  · nlinarith [mul_nonneg (by linarith : (0:ℝ) ≤ 1 + Real.cos c)
        (by linarith : (0:ℝ) ≤ 1 + Real.sin (a + b)),
      mul_nonneg (by linarith : (0:ℝ) ≤ 1 - Real.cos c)
        (by linarith : (0:ℝ) ≤ 1 + Real.sin (a - b))]
  · nlinarith [mul_nonneg (by linarith : (0:ℝ) ≤ 1 + Real.cos c)
        (by linarith : (0:ℝ) ≤ 1 - Real.sin (a + b)),
      mul_nonneg (by linarith : (0:ℝ) ≤ 1 - Real.cos c)
        (by linarith : (0:ℝ) ≤ 1 - Real.sin (a - b))]

lemma update_position_nonpos_aux (dt lat lon bearing speed_knots : ℝ)
    (h : speed_knots * 1.852 * (dt / 3600) ≤ 0) :
    update_position dt lat lon bearing speed_knots = (lat, lon) := by
  simp only [update_position]
  rw [if_pos h]

lemma update_position_pos (dt lat lon bearing speed_knots : ℝ)
    (h : 0 < speed_knots * 1.852 * (dt / 3600)) :
    update_position dt lat lon bearing speed_knots =
      spec_destination lat lon (pmodR (bearing + 180) 360)
        (speed_knots * 1.852 * (dt / 3600)) := by
  have harg := sin_arg_le_one (radiansR lat)
    (speed_knots * 1.852 * (dt / 3600) / 6371) (radiansR (pmodR (bearing + 180) 360))
  simp only [update_position, spec_destination]
  rw [if_neg (not_le.2 h), if_neg (not_lt.2 harg)]

lemma pmodR_0_180 : pmodR ((0:ℝ) + 180) 360 = 180 := by
  unfold pmodR
  have h : ⌊((0:ℝ) + 180) / 360⌋ = 0 := by
    rw [Int.floor_eq_iff] ; norm_num
  rw [h]
  norm_num

lemma pmodR_270_180 : pmodR ((270:ℝ) + 180) 360 = 90 := by
  unfold pmodR
  have h : ⌊((270:ℝ) + 180) / 360⌋ = 1 := by
    rw [Int.floor_eq_iff] ; norm_num
  rw [h]
  norm_num

lemma radiansR_zero : radiansR 0 = 0 := by
  unfold radiansR; ring

lemma radiansR_180 : radiansR 180 = Real.pi := by
  unfold radiansR
  field_simp

lemma radiansR_90 : radiansR 90 = Real.pi / 2 := by
  unfold radiansR
  field_simp
  ring

lemma update_position_south_eval :
    update_position 3600 0 0 0 1 = (-(1.852 / 6371 * (180 / Real.pi)), 0) := by
  have hπ := Real.pi_pos
  have hd : (1:ℝ) * 1.852 * (3600 / 3600) = 1.852 := by norm_num
  rw [update_position_pos 3600 0 0 0 1 (by norm_num), hd, pmodR_0_180]
  simp only [spec_destination, radiansR_zero, radiansR_180]
  rw [Real.sin_zero, Real.cos_zero, Real.cos_pi, Real.sin_pi]
  have hdel_lt : (1.852:ℝ) / 6371 < Real.pi / 2 := by
    nlinarith [Real.pi_gt_three]
  have harg : (0:ℝ) * Real.cos (1.852 / 6371) + 1 * Real.sin (1.852 / 6371) * -1
      = -Real.sin (1.852 / 6371) := by ring
  rw [harg, Real.arcsin_neg,
    Real.arcsin_sin (by linarith) (by linarith)]
  have hy : (0:ℝ) * Real.sin (1.852 / 6371) * 1 = 0 := by ring
  rw [hy]
  have hx : Real.cos (1.852 / 6371) - 0 * Real.sin (-(1.852 / 6371))
      = Real.cos (1.852 / 6371) := by ring
  rw [hx]
  have hcos : 0 < Real.cos (1.852 / 6371) :=
    Real.cos_pos_of_mem_Ioo ⟨by linarith, hdel_lt⟩
  rw [atan2, if_pos hcos, zero_div, Real.arctan_zero]
  unfold degreesR
  simp only [Prod.mk.injEq]
  constructor
  · ring
  · ring

/-- Claim C5 counterexample: with wind source bearing 0 the balloon drifts
along heading 180, so `step(0, 0, bearing=0, speed=1 knot, dt=3600 s)` moves
the point due SOUTH (latitude strictly decreases, longitude unchanged), not
north as the spec's example asserts. -/
theorem update_position_bearing_zero_moves_south :
    (update_position 3600 0 0 0 1).1 < 0 ∧ (update_position 3600 0 0 0 1).2 = 0 := by
  rw [update_position_south_eval]
  refine ⟨?_, rfl⟩
  have hπ := Real.pi_pos
  have hpos : 0 < 1.852 / 6371 * (180 / Real.pi) := by positivity
  show -(1.852 / 6371 * (180 / Real.pi)) < 0
  exact neg_lt_zero.2 hpos

/-- Claim C5 (amended): for positive travel distance the step follows the
spec's spherical-Earth direct geodesic formula with heading
`(wind_bearing + 180) mod 360` and distance `speed * 1.852 * (dt / 3600)`;
the example `step(0, 0, bearing=0, speed=1 knot, dt=3600 s)` moves the point
due south by `1.852/6371` radians of latitude (between 0.0166 and 0.0167
degrees), longitude unchanged. -/
theorem update_position_spec_formula :
    (∀ dt lat lon bearing speed_knots : ℝ,
      0 < speed_knots * 1.852 * (dt / 3600) →
      update_position dt lat lon bearing speed_knots =
        spec_destination lat lon (pmodR (bearing + 180) 360)
          (speed_knots * 1.852 * (dt / 3600))) ∧
    update_position 3600 0 0 0 1 = (-(1.852 / 6371 * (180 / Real.pi)), 0) ∧
    -0.0167 < (update_position 3600 0 0 0 1).1 ∧
    (update_position 3600 0 0 0 1).1 < -0.0166 := by
  have hπ := Real.pi_pos
  have h1 := Real.pi_gt_d2
  have h2 := Real.pi_lt_d2
  refine ⟨update_position_pos, update_position_south_eval, ?_, ?_⟩
  · rw [update_position_south_eval]
    show -0.0167 < -(1.852 / 6371 * (180 / Real.pi))
    rw [neg_lt_neg_iff, div_mul_div_comm]
    norm_num
    rw [div_lt_iff₀ (by positivity)]
    nlinarith
  · rw [update_position_south_eval]
    show -(1.852 / 6371 * (180 / Real.pi)) < -0.0166
    rw [neg_lt_neg_iff, div_mul_div_comm]
    norm_num
    rw [lt_div_iff₀ (by positivity)]
    nlinarith

/-- Witness for the amended propagation-formula claim at bearing 0, one knot,
one hour. -/
theorem update_position_spec_formula_witness :
    update_position 3600 0 0 0 1 =
      spec_destination 0 0 (pmodR ((0:ℝ) + 180) 360) (1 * 1.852 * (3600 / 3600)) :=
  update_position_spec_formula.1 3600 0 0 0 1 (by norm_num)

/-- Claim C9: when the computed travel distance
`speed_knots * 1.852 * (dt / 3600)` is nonpositive (zero or negative wind
speed in particular), the step returns the input position unchanged without
signalling an error. -/
theorem update_position_noop_nonpositive (dt lat lon bearing speed_knots : ℝ)
    (h : speed_knots * 1.852 * (dt / 3600) ≤ 0) :
    update_position dt lat lon bearing speed_knots = (lat, lon) :=
  update_position_nonpos_aux dt lat lon bearing speed_knots h

/-- Witness: zero wind speed at the source's initial position and tick length
leaves the position unchanged. -/
theorem update_position_noop_nonpositive_witness :
    update_position 1 (57.89579925190799 : ℝ) (11.745555042076292 : ℝ) 90 0
      = (57.89579925190799, 11.745555042076292) :=
  update_position_noop_nonpositive 1 _ _ 90 0 (by norm_num)

lemma update_position_east_eval :
    update_position 3600 0 179.999 270 1
      = (0, 179.999 + 1.852 / 6371 * (180 / Real.pi)) := by
  have hπ := Real.pi_pos
  have hd : (1:ℝ) * 1.852 * (3600 / 3600) = 1.852 := by norm_num
  rw [update_position_pos 3600 0 179.999 270 1 (by norm_num), hd, pmodR_270_180]
  simp only [spec_destination, radiansR_zero, radiansR_90]
  rw [Real.sin_zero, Real.cos_zero, Real.cos_pi_div_two, Real.sin_pi_div_two]
  have hdel_lt : (1.852:ℝ) / 6371 < Real.pi / 2 := by
    nlinarith [Real.pi_gt_three]
  have harg : (0:ℝ) * Real.cos (1.852 / 6371) + 1 * Real.sin (1.852 / 6371) * 0
      = 0 := by ring
  rw [harg, Real.arcsin_zero]
  have hy : (1:ℝ) * Real.sin (1.852 / 6371) * 1 = Real.sin (1.852 / 6371) := by ring
  rw [hy]
  have hx : Real.cos (1.852 / 6371) - 0 * Real.sin 0 = Real.cos (1.852 / 6371) := by
    ring
  rw [hx]
  have hcos : 0 < Real.cos (1.852 / 6371) :=
    Real.cos_pos_of_mem_Ioo ⟨by linarith, hdel_lt⟩
  rw [atan2, if_pos hcos, ← Real.tan_eq_sin_div_cos,
    Real.arctan_tan (by linarith) hdel_lt]
  unfold degreesR radiansR
  simp only [Prod.mk.injEq]
  constructor
  · ring
  · field_simp
    ring

/-- Claim C8 counterexample: from a state with longitude inside `[-180, 180)`
one step can return longitude above 180 — the code never wrap-normalizes its
result (input latitude 0, longitude 179.999, wind bearing 270, one knot, one
hour). -/
theorem update_position_longitude_escapes :
    (-180 ≤ (179.999 : ℝ) ∧ (179.999 : ℝ) < 180) ∧
    180 < (update_position 3600 0 179.999 270 1).2 := by
  refine ⟨⟨by norm_num, by norm_num⟩, ?_⟩
  rw [update_position_east_eval]
  show (180:ℝ) < 179.999 + 1.852 / 6371 * (180 / Real.pi)
  have h2 := Real.pi_lt_d2
  have hπ := Real.pi_pos
  have hgap : (0.001 : ℝ) < 1.852 / 6371 * (180 / Real.pi) := by
    rw [div_mul_div_comm]
    norm_num
    rw [lt_div_iff₀ (by positivity)]
    nlinarith
  linarith

lemma degreesR_arcsin_mem (x : ℝ) :
    -90 ≤ degreesR (Real.arcsin x) ∧ degreesR (Real.arcsin x) ≤ 90 := by
  have hπ := Real.pi_pos
  have h1 := Real.neg_pi_div_two_le_arcsin x
  have h2 := Real.arcsin_le_pi_div_two x
  have hkey : Real.pi / 2 * (180 / Real.pi) = 90 := by
    field_simp
    ring
  unfold degreesR
  have hscale : (0:ℝ) ≤ 180 / Real.pi := by positivity
  constructor
  · have hm := mul_le_mul_of_nonneg_right h1 hscale
    have hneg : -(Real.pi / 2) * (180 / Real.pi) = -(Real.pi / 2 * (180 / Real.pi)) := by
      ring
    rw [hneg, hkey] at hm
    linarith
  · have hm := mul_le_mul_of_nonneg_right h2 hscale
    rw [hkey] at hm
    linarith

lemma degreesR_lon_mem {lon : ℝ} (hlon1 : -180 ≤ lon) (hlon2 : lon < 180)
    (y x : ℝ) :
    -360 < degreesR (radiansR lon + atan2 y x) ∧
      degreesR (radiansR lon + atan2 y x) < 360 := by
  have hπ := Real.pi_pos
  obtain ⟨ha1, ha2⟩ := atan2_range y x
  have hl1 : -Real.pi ≤ radiansR lon := by
    unfold radiansR
    nlinarith [mul_nonneg (by linarith : (0:ℝ) ≤ lon + 180)
      (by positivity : (0:ℝ) ≤ Real.pi / 180)]
  have hl2 : radiansR lon < Real.pi := by
    unfold radiansR
    nlinarith [mul_pos (by linarith : (0:ℝ) < 180 - lon)
      (by positivity : (0:ℝ) < Real.pi / 180)]
  have hs1 : -(2 * Real.pi) < radiansR lon + atan2 y x := by linarith
  have hs2 : radiansR lon + atan2 y x < 2 * Real.pi := by linarith
  have hscale : (0:ℝ) < 180 / Real.pi := by positivity
  have hkey : 2 * Real.pi * (180 / Real.pi) = 360 := by
    field_simp
    ring
  unfold degreesR
  constructor
  · have hm := mul_lt_mul_of_pos_right hs1 hscale
    have hneg : -(2 * Real.pi) * (180 / Real.pi) = -(2 * Real.pi * (180 / Real.pi)) := by
      ring
    rw [hneg, hkey] at hm
    linarith
  · have hm := mul_lt_mul_of_pos_right hs2 hscale
    rw [hkey] at hm
    linarith

/-- Claim C8 (amended): from a state with latitude in `[-90, 90]` and
longitude in `[-180, 180)` the step keeps latitude in `[-90, 90]`, but the
longitude is not wrap-normalized: it is only guaranteed to stay within
`(-360, 360)` (input longitude plus a delta in `(-180, 180]`), and can leave
`[-180, 180)`. -/
theorem update_position_range_invariant (dt lat lon bearing speed_knots : ℝ)
    (hlat1 : -90 ≤ lat) (hlat2 : lat ≤ 90)
    (hlon1 : -180 ≤ lon) (hlon2 : lon < 180) :
    (-90 ≤ (update_position dt lat lon bearing speed_knots).1 ∧
      (update_position dt lat lon bearing speed_knots).1 ≤ 90) ∧
    (-360 < (update_position dt lat lon bearing speed_knots).2 ∧
      (update_position dt lat lon bearing speed_knots).2 < 360) := by
  by_cases h : speed_knots * 1.852 * (dt / 3600) ≤ 0
  · rw [update_position_nonpos_aux dt lat lon bearing speed_knots h]
    exact ⟨⟨hlat1, hlat2⟩, by constructor <;> simp <;> linarith⟩
  · rw [update_position_pos dt lat lon bearing speed_knots (not_le.1 h)]
    simp only [spec_destination]
    exact ⟨degreesR_arcsin_mem _, degreesR_lon_mem hlon1 hlon2 _ _⟩

/-- Witness for the range-invariant claim at the one-knot, one-hour example. -/
theorem update_position_range_invariant_witness :
    (-90 ≤ (update_position 3600 0 0 0 1).1 ∧
      (update_position 3600 0 0 0 1).1 ≤ 90) ∧
    (-360 < (update_position 3600 0 0 0 1).2 ∧
      (update_position 3600 0 0 0 1).2 < 360) :=
  update_position_range_invariant 3600 0 0 0 1
    (by norm_num) (by norm_num) (by norm_num) (by norm_num)

end BalloonSim
